import Mathlib

/-
Shallow embedding of the Palladin HMR client
(src/server/src/hmr/hmr_client.js).

Modelling conventions:
* JS strings are Lean `String`; `String.prototype.endsWith` is modelled by
  `jsEndsWith` (suffix of the character list) and `String.prototype.includes`
  by `strIncludes` (substring of the character list).
* URLs are modelled by `UrlT`: the client only ever reads or writes the `t`
  search parameter (`url.searchParams.set('t', Date.now().toString())`), so a
  URL is split into `base` (everything but the `t` parameter) and `tParam`
  (the current value of the `t` parameter, if any).  `Date.now()` is passed in
  explicitly as a `Nat` timestamp.
* The page is a `DOM`: the list of `script[type="module"]` elements (with
  their resolved `src`, `none` for inline scripts whose `src` property is the
  empty, falsy string) and the list of `link[rel="stylesheet"]` elements
  (with their resolved `href`, `none` when the `href` attribute is absent).
* The module-level mutable variables (`socket`, `reconnectTimer`,
  `isReconnecting`, `isFirstConnection`) become fields of `ClientState`.
  Sockets and timer handles are generation counters.  `window.location.reload()`
  is modelled by incrementing the `reloads` counter.  The set of scheduled,
  not-yet-fired, not-cancelled timeouts is the `pending` list (JavaScript
  itself allows arbitrarily many pending timeouts, so the at-most-one
  property is a theorem, not a modelling assumption).
* Transport events (open / message / close / error) and timer firings are the
  `Event` type; `step` runs the corresponding registered listener body.  A
  `message` event carries the result of `JSON.parse`: `none` models a payload
  that is not valid JSON (the `catch` branch).
-/

/-- Substring test on character lists: models `String.prototype.includes`. -/
def listIncludes (sub : List Char) : List Char → Bool
  | [] => sub.isEmpty
  | c :: t => sub.isPrefixOf (c :: t) || listIncludes sub t

/-- Model of `s.includes(sub)` for JS strings. -/
def strIncludes (s sub : String) : Bool :=
  listIncludes sub.data s.data

/-- Model of `s.endsWith(suffix)` for JS strings. -/
def jsEndsWith (s suffix : String) : Bool :=
  suffix.data.isSuffixOf s.data

/-- One entry of an `update` message: `{path: string}`. -/
structure Update where
  path : String
  deriving DecidableEq, Repr

/-- A URL, reduced to the only parts the client manipulates: everything
except the `t` search parameter, and the `t` search parameter itself. -/
structure UrlT where
  base : String
  tParam : Option Nat
  deriving DecidableEq, Repr

/-- A `script[type="module"]` element; `src = none` models an inline module
script (its `src` property is the empty string, which is falsy). -/
structure ScriptEl where
  src : Option UrlT
  deriving DecidableEq, Repr

/-- A `link[rel="stylesheet"]` element. -/
structure LinkEl where
  href : Option UrlT
  deriving DecidableEq, Repr

/-- The DOM surface the client touches. -/
structure DOM where
  scripts : List ScriptEl
  links : List LinkEl
  deriving DecidableEq, Repr

/-- The test `script.src && !script.src.includes('__hmr')` used at lines
122 and 133 of hmr_client.js: the script has a non-empty `src` that does not
mention the HMR endpoint path segment. -/
def scriptReloadable (s : ScriptEl) : Bool :=
  match s.src with
  | none => false
  | some u => !strIncludes u.base "__hmr"

/-- The `scriptUrls` array collected by `reloadJavaScript`: the `src` of
every reloadable module script, in document order. -/
def collectScriptUrls (scripts : List ScriptEl) : List UrlT :=
  scripts.filterMap fun s => if scriptReloadable s then s.src else none

/-- Result of `reloadJavaScript`: the new DOM, and whether the function fell
back to `window.location.reload()`. -/
structure JsReloadResult where
  dom : DOM
  fullReload : Bool
  deriving DecidableEq, Repr

/-- Model of `reloadJavaScript()` (hmr_client.js lines 118-147): collect the
`src` of every non-HMR module script with a `src`; if there are none, do a
full page reload; otherwise remove those scripts and append fresh module
scripts with the same URLs carrying a cache-busting `t` parameter. -/
def reloadJavaScript (dom : DOM) (ts : Nat) : JsReloadResult :=
  let scriptUrls := collectScriptUrls dom.scripts
  if scriptUrls.isEmpty then
    { dom := dom, fullReload := true }
  else
    let kept := dom.scripts.filter fun s => !scriptReloadable s
    let fresh : List ScriptEl :=
      scriptUrls.map fun url => { src := some { base := url.base, tParam := some ts } }
    { dom := { dom with scripts := kept ++ fresh }, fullReload := false }

/-- The per-link body of `reloadCSS`: if the link has an `href`, set its `t`
search parameter to the current timestamp. -/
def setLinkT (ts : Nat) (l : LinkEl) : LinkEl :=
  match l.href with
  | some u => { href := some { base := u.base, tParam := some ts } }
  | none => l

/-- Model of `reloadCSS(path)` (hmr_client.js lines 101-116): rewrite the `t`
parameter of every stylesheet link that has an `href` (the `path` argument is
only used for logging), returning the new DOM and the `reloaded` flag (true
when at least one link had an `href`). -/
def reloadCSS (path : String) (dom : DOM) (ts : Nat) : DOM × Bool :=
  ({ dom with links := dom.links.map (setLinkT ts) },
   dom.links.any fun l => l.href.isSome)

/-- Result of `handleUpdate`: the new DOM, whether scripts were re-injected,
and whether a full page reload was triggered. -/
structure UpdateResult where
  dom : DOM
  didScriptReload : Bool
  didFullReload : Bool
  deriving DecidableEq, Repr

/-- Model of `handleUpdate(updates)` (hmr_client.js lines 76-99).  The
classification flags and the two phases (CSS refresh, then script reload)
mirror the source line by line. -/
def handleUpdate (updates : List Update) (dom : DOM) (ts : Nat) : UpdateResult :=
  let hasJsChanges := updates.any fun u =>
    jsEndsWith u.path ".js" || jsEndsWith u.path ".jsx" ||
    jsEndsWith u.path ".ts" || jsEndsWith u.path ".tsx"
  let hasCssChanges := updates.any fun u => jsEndsWith u.path ".css"
  let hasHtmlChanges := updates.any fun u => jsEndsWith u.path ".html"
  let dom1 :=
    if hasCssChanges then
      updates.foldl
        (fun d u => if jsEndsWith u.path ".css" then (reloadCSS u.path d ts).1 else d) dom
    else dom
  if hasJsChanges || hasHtmlChanges then
    let r := reloadJavaScript dom1 ts
    { dom := r.dom, didScriptReload := !r.fullReload, didFullReload := r.fullReload }
  else
    { dom := dom1, didScriptReload := false, didFullReload := false }

/-- A decoded wire message, after `JSON.parse` and the `message.type` switch
of `handleMessage`. -/
inductive Msg where
  | connected : Msg
  | update : List Update → Msg
  | fullReload : Msg
  | unknown : String → Msg
  deriving DecidableEq, Repr

/-- A scheduled `setTimeout` that has not yet fired or been cancelled. -/
structure TimerEntry where
  handle : Nat
  delay : Nat
  deriving DecidableEq, Repr

/-- The module-level mutable state of hmr_client.js, plus bookkeeping:
fresh-id counters for sockets and timer handles, the multiset of pending
timeouts, the reload counter, and the socket stored in the
`window.__PALLADIN_HMR__` handle at load time. -/
structure ClientState where
  socket : Nat
  nextSocket : Nat
  reconnectTimer : Option Nat
  isReconnecting : Bool
  isFirstConnection : Bool
  nextTimer : Nat
  pending : List TimerEntry
  dom : DOM
  reloads : Nat
  apiSocket : Nat
  deriving DecidableEq, Repr

/-- Model of `connect()` (hmr_client.js lines 12-47): `socket = new
WebSocket(socketUrl)` assigns a fresh transport to the module variable.
Registering the four listeners has no immediate state effect. -/
def connect (s : ClientState) : ClientState :=
  { s with socket := s.nextSocket, nextSocket := s.nextSocket + 1 }

/-- Model of `handleMessage(message)` (hmr_client.js lines 49-74), given the
current `Date.now()` value `now`. -/
def handleMessage (m : Msg) (s : ClientState) (now : Nat) : ClientState :=
  match m with
  | .connected =>
      if s.isFirstConnection then
        { s with isFirstConnection := false }
      else
        { s with reloads := s.reloads + 1 }
  | .update updates =>
      let r := handleUpdate updates s.dom now
      { s with dom := r.dom, reloads := s.reloads + (if r.didFullReload then 1 else 0) }
  | .fullReload => { s with reloads := s.reloads + 1 }
  | .unknown _ => s

/-- An external stimulus: a transport event or a timer firing.  A `message`
event carries `none` when `JSON.parse(event.data)` throws. -/
inductive Event where
  | openEv : Event
  | closeEv : Event
  | errorEv : Event
  | timerFire : Nat → Event
  | message : Option Msg → Nat → Event
  deriving DecidableEq, Repr

/-- One listener invocation.  `openEv` runs the open listener (lines 15-22):
clear `isReconnecting`, and `clearTimeout(reconnectTimer)` plus
`reconnectTimer = null` when a handle is stored.  `closeEv` runs the close
listener (lines 33-42): when not already reconnecting, set the flag and
schedule a fresh 1000 ms timeout.  `timerFire h` fires a pending timeout:
its callback only calls `connect()`.  `errorEv` only logs.  `message` runs
the message listener (lines 24-31): a decode failure is caught and dropped,
otherwise `handleMessage` runs. -/
def step (s : ClientState) (e : Event) : ClientState :=
  match e with
  | .openEv =>
      let s1 := { s with isReconnecting := false }
      match s1.reconnectTimer with
      | some h =>
          { s1 with pending := s1.pending.filter (fun t => t.handle != h),
                    reconnectTimer := none }
      | none => s1
  | .closeEv =>
      if s.isReconnecting then s
      else
        { s with isReconnecting := true,
                 reconnectTimer := some s.nextTimer,
                 pending := s.pending ++ [⟨s.nextTimer, 1000⟩],
                 nextTimer := s.nextTimer + 1 }
  | .errorEv => s
  | .timerFire h =>
      if s.pending.any (fun t => t.handle == h) then
        connect { s with pending := s.pending.filter (fun t => t.handle != h) }
      else s
  | .message none _ => s
  | .message (some m) now => handleMessage m s now

/-- Process a list of events in order (the single-threaded event loop). -/
def run (s : ClientState) (evs : List Event) : ClientState :=
  evs.foldl step s

/-- The module state before `connect()` is called at load time. -/
def blankState (d : DOM) : ClientState :=
  { socket := 0, nextSocket := 1, reconnectTimer := none, isReconnecting := false,
    isFirstConnection := true, nextTimer := 0, pending := [], dom := d,
    reloads := 0, apiSocket := 0 }

/-- Module initialisation (hmr_client.js lines 149-156): call `connect()`,
then build `window.__PALLADIN_HMR__ = { socket, reconnect: connect }` — the
object literal copies the current value of the `socket` variable, recorded
here in `apiSocket`. -/
def moduleInit (d : DOM) : ClientState :=
  let s := connect (blankState d)
  { s with apiSocket := s.socket }

/-- The `reconnect` field of the `window.__PALLADIN_HMR__` handle: it is the
`connect` function itself. -/
def palladinReconnect : ClientState → ClientState :=
  connect

/-- A page with no module scripts and no stylesheet links. -/
def emptyDOM : DOM := ⟨[], []⟩

/-- Is this event a successfully decoded `connected` message? -/
def isConnectedMsgEv (e : Event) : Bool :=
  match e with
  | .message (some .connected) _ => true
  | _ => false

/-- Has a `connected` message already been processed in this event list? -/
def connectedSeen (evs : List Event) : Bool :=
  evs.any isConnectedMsgEv

/-- Path classification used by claim C4: a script extension or `.html`. -/
def scriptOrHtmlPath (p : String) : Bool :=
  (jsEndsWith p ".js" || jsEndsWith p ".jsx" ||
   jsEndsWith p ".ts" || jsEndsWith p ".tsx") || jsEndsWith p ".html"

/-- Two strings neither of which is a suffix of the other cannot both be
suffixes of the same path. -/
theorem jsEndsWith_excl (p a b : String)
    (hab : ¬ (a.data <:+ b.data)) (hba : ¬ (b.data <:+ a.data))
    (ha : jsEndsWith p a = true) : jsEndsWith p b = false := by
  cases hb : jsEndsWith p b
  · rfl
  · exfalso
    have ha' : a.data <:+ p.data := List.isSuffixOf_iff_suffix.mp ha
    have hb' : b.data <:+ p.data := List.isSuffixOf_iff_suffix.mp hb
    rcases List.suffix_or_suffix_of_suffix ha' hb' with h | h
    · exact hab h
    · exact hba h

/-- A path ending in `.css` matches none of the other recognized extensions. -/
theorem css_excl (p : String) (hc : jsEndsWith p ".css" = true) :
    jsEndsWith p ".js" = false ∧ jsEndsWith p ".jsx" = false ∧
    jsEndsWith p ".ts" = false ∧ jsEndsWith p ".tsx" = false ∧
    jsEndsWith p ".html" = false :=
  ⟨jsEndsWith_excl p ".css" ".js" (by decide) (by decide) hc,
   jsEndsWith_excl p ".css" ".jsx" (by decide) (by decide) hc,
   jsEndsWith_excl p ".css" ".ts" (by decide) (by decide) hc,
   jsEndsWith_excl p ".css" ".tsx" (by decide) (by decide) hc,
   jsEndsWith_excl p ".css" ".html" (by decide) (by decide) hc⟩

/-- `any` distributes over a pointwise disjunction. -/
theorem list_any_or {α : Type} (l : List α) (f g : α → Bool) :
    (l.any fun x => f x || g x) = (l.any f || l.any g) := by
  induction l with
  | nil => rfl
  | cons x xs ih =>
      simp only [List.any_cons, ih]
      cases f x <;> cases g x <;> cases xs.any f <;> cases xs.any g <;> rfl

/-- `handleMessage` never touches the connection-manager fields: the pending
timeouts, the reconnecting flag, the stored timer handle, or the exposed
handle's socket. -/
theorem handleMessage_conn_fields (m : Msg) (s : ClientState) (now : Nat) :
    (handleMessage m s now).pending = s.pending ∧
    (handleMessage m s now).isReconnecting = s.isReconnecting ∧
    (handleMessage m s now).reconnectTimer = s.reconnectTimer ∧
    (handleMessage m s now).apiSocket = s.apiSocket := by
  cases m with
  | connected => cases h : s.isFirstConnection <;> simp [handleMessage, h]
  | update us => exact ⟨rfl, rfl, rfl, rfl⟩
  | fullReload => exact ⟨rfl, rfl, rfl, rfl⟩
  | unknown k => exact ⟨rfl, rfl, rfl, rfl⟩

/-- One step clears `isFirstConnection` exactly when the event is a decoded
`connected` message, and otherwise leaves it alone. -/
theorem step_isFirstConnection (s : ClientState) (e : Event) :
    (step s e).isFirstConnection = (s.isFirstConnection && !isConnectedMsgEv e) := by
  cases e with
  | openEv => cases h : s.reconnectTimer <;> simp [step, isConnectedMsgEv, h]
  | closeEv => cases h : s.isReconnecting <;> simp [step, isConnectedMsgEv, h]
  | errorEv => simp [step, isConnectedMsgEv]
  | timerFire h =>
      cases hp : s.pending.any (fun t => t.handle == h) <;>
        simp [step, isConnectedMsgEv, connect, hp]
  | message m now =>
      cases m with
      | none => simp [step, isConnectedMsgEv]
      | some msg =>
          cases msg with
          | connected =>
              cases h : s.isFirstConnection <;>
                simp [step, handleMessage, isConnectedMsgEv, h]
          | update us => simp [step, handleMessage, isConnectedMsgEv]
          | fullReload => simp [step, handleMessage, isConnectedMsgEv]
          | unknown k => simp [step, handleMessage, isConnectedMsgEv]

/-- Over a whole run, `isFirstConnection` stays true exactly until a
`connected` message is processed. -/
theorem run_isFirstConnection (evs : List Event) : ∀ s : ClientState,
    (run s evs).isFirstConnection = (s.isFirstConnection && !connectedSeen evs) := by
  induction evs with
  | nil => intro s; simp [run, connectedSeen]
  | cons e evs ih =>
      intro s
      show (run (step s e) evs).isFirstConnection = _
      rw [ih, step_isFirstConnection]
      simp only [connectedSeen, List.any_cons, Bool.not_or, Bool.and_assoc]

/-- No step ever rewrites the socket recorded in the exposed handle. -/
theorem step_apiSocket (s : ClientState) (e : Event) :
    (step s e).apiSocket = s.apiSocket := by
  cases e with
  | openEv => cases h : s.reconnectTimer <;> simp [step, h]
  | closeEv => cases h : s.isReconnecting <;> simp [step, h]
  | errorEv => rfl
  | timerFire h =>
      cases hp : s.pending.any (fun t => t.handle == h) <;> simp [step, connect, hp]
  | message m now =>
      cases m with
      | none => rfl
      | some msg => exact (handleMessage_conn_fields msg s now).2.2.2

/-- Over a whole run, the socket recorded in the exposed handle is fixed. -/
theorem run_apiSocket (evs : List Event) : ∀ s : ClientState,
    (run s evs).apiSocket = s.apiSocket := by
  induction evs with
  | nil => intro s; rfl
  | cons e evs ih =>
      intro s
      show (run (step s e) evs).apiSocket = _
      rw [ih, step_apiSocket]

/-- Reconnect-timer invariant: at most one pending timeout; no pending
timeout unless the client is in the reconnecting state; and every pending
timeout is the one whose handle is stored in `reconnectTimer`. -/
def timerInv (s : ClientState) : Prop :=
  s.pending.length ≤ 1 ∧
  (s.isReconnecting = false → s.pending = []) ∧
  (∀ t ∈ s.pending, s.reconnectTimer = some t.handle)

/-- Every listener body preserves the reconnect-timer invariant. -/
theorem timerInv_step (s : ClientState) (e : Event) :
    timerInv s → timerInv (step s e) := by
  rintro ⟨h1, h2, h3⟩
  cases e with
  | errorEv => exact ⟨h1, h2, h3⟩
  | openEv =>
      cases hr : s.reconnectTimer with
      | none =>
          have hemp : s.pending = [] := by
            cases hp : s.pending with
            | nil => rfl
            | cons t ts =>
                have := h3 t (by rw [hp]; exact List.mem_cons_self t ts)
                rw [hr] at this
                exact absurd this (by simp)
          refine ⟨?_, ?_, ?_⟩ <;> simp [step, hr, hemp]
      | some hdl =>
          have hfil : s.pending.filter (fun t => t.handle != hdl) = [] := by
            rw [List.filter_eq_nil_iff]
            intro t ht
            have := h3 t ht
            rw [hr] at this
            have heq : t.handle = hdl := by
              injection this with h'
              exact h'.symm
            simp [heq]
          refine ⟨?_, ?_, ?_⟩ <;> simp [step, hr, hfil]
  | closeEv =>
      cases hrec : s.isReconnecting with
      | true =>
          have hstep : step s Event.closeEv = s := by simp [step, hrec]
          rw [hstep]
          exact ⟨h1, h2, h3⟩
      | false =>
          have hemp := h2 hrec
          refine ⟨?_, ?_, ?_⟩ <;> simp [step, hrec, hemp]
  | timerFire hdl =>
      cases hp : s.pending.any (fun t => t.handle == hdl) with
      | false =>
          have hstep : step s (Event.timerFire hdl) = s := by simp [step, hp]
          rw [hstep]
          exact ⟨h1, h2, h3⟩
      | true =>
          have hstep : step s (Event.timerFire hdl) =
              connect { s with pending := s.pending.filter (fun t => t.handle != hdl) } := by
            simp [step, hp]
          refine ⟨?_, ?_, ?_⟩
          · rw [hstep]
            exact le_trans (List.length_filter_le _ _) h1
          · intro hrec
            rw [hstep] at hrec ⊢
            show s.pending.filter (fun t => t.handle != hdl) = []
            rw [h2 hrec]
            rfl
          · intro t ht
            rw [hstep] at ht ⊢
            have ht' : t ∈ s.pending.filter (fun u => u.handle != hdl) := ht
            show s.reconnectTimer = some t.handle
            exact h3 t (List.mem_filter.mp ht').1
  | message m now =>
      cases m with
      | none => exact ⟨h1, h2, h3⟩
      | some msg =>
          obtain ⟨hp', hr', ht', _⟩ := handleMessage_conn_fields msg s now
          have hstep : step s (Event.message (some msg) now) = handleMessage msg s now := rfl
          refine ⟨?_, ?_, ?_⟩
          · rw [hstep, hp']
            exact h1
          · intro hrec
            rw [hstep] at hrec ⊢
            rw [hr'] at hrec
            rw [hp']
            exact h2 hrec
          · intro t ht
            rw [hstep] at ht ⊢
            rw [hp'] at ht
            rw [ht']
            exact h3 t ht

/-- The reconnect-timer invariant is preserved by whole runs. -/
theorem timerInv_run (evs : List Event) : ∀ s : ClientState,
    timerInv s → timerInv (run s evs) := by
  induction evs with
  | nil => intro s h; exact h
  | cons e evs ih =>
      intro s h
      exact ih (step s e) (timerInv_step s e h)

/-- The state established at module load satisfies the timer invariant. -/
theorem timerInv_moduleInit (d : DOM) : timerInv (moduleInit d) :=
  ⟨by simp [moduleInit, connect, blankState],
   fun _ => rfl,
   fun t ht => absurd ht (List.not_mem_nil t)⟩

/-- Claim C1: processing the first decoded `connected` message never triggers
a page reload — it only clears `isFirstConnection` (the FirstConnectionFlag)
— while processing any subsequent `connected` message leaves the flag alone
and always triggers exactly one full page reload (modelled as incrementing
the `reloads` counter). -/
theorem c1_first_connected_no_reload_then_reload (d : DOM) (evs : List Event) (ts : Nat) :
    step (run (moduleInit d) evs) (Event.message (some Msg.connected) ts) =
      (if connectedSeen evs then
        { run (moduleInit d) evs with reloads := (run (moduleInit d) evs).reloads + 1 }
      else
        { run (moduleInit d) evs with isFirstConnection := false }) := by
  have hm : (moduleInit d).isFirstConnection = true := rfl
  have hfc := run_isFirstConnection evs (moduleInit d)
  rw [hm] at hfc
  cases hcs : connectedSeen evs with
  | false =>
      rw [hcs] at hfc
      simp only [Bool.not_false, Bool.and_true] at hfc
      simp [step, handleMessage, hfc]
  | true =>
      rw [hcs] at hfc
      simp only [Bool.not_true, Bool.and_false] at hfc
      simp [step, handleMessage, hfc]

/-- Claim C3: across every sequence of transport open/close/error events and
timer firings (and messages), at most one reconnect timeout is pending at any
time.  In particular a close event while a reconnect is pending (the close
listener's `isReconnecting` guard) schedules no second timeout. -/
theorem c3_at_most_one_pending_timer (d : DOM) (evs : List Event) :
    (run (moduleInit d) evs).pending.length ≤ 1 :=
  (timerInv_run evs (moduleInit d) (timerInv_moduleInit d)).1

/-- Claim C6 counterexample: run the close listener, then let the scheduled
timeout fire.  The timeout is gone from the pending set, but the timer
callback (hmr_client.js lines 37-40) only calls `connect()`: contrary to the
claim, it does NOT clear the governing timer handle — `reconnectTimer` still
holds the fired handle (and `isReconnecting` is still set); both are cleared
only later, by the open listener. -/
theorem c6_counterexample :
    (run (moduleInit emptyDOM) [Event.closeEv, Event.timerFire 0]).pending = [] ∧
    (run (moduleInit emptyDOM) [Event.closeEv, Event.timerFire 0]).reconnectTimer = some 0 ∧
    (run (moduleInit emptyDOM) [Event.closeEv, Event.timerFire 0]).isReconnecting = true :=
  ⟨rfl, rfl, rfl⟩

/-- Claim C6 amended: on a transport close with no reconnect pending, the
state becomes reconnect-pending and a timeout is scheduled with the fixed
1000 ms delay; when that timeout fires, its callback calls `connect()` again
but does NOT clear the stored timer handle or the pending flag — both are
left for the open listener to clear. -/
theorem c6_close_schedules_and_fire_connects (s : ClientState) (h : Nat) :
    (s.isReconnecting = false →
      step s Event.closeEv =
        { s with isReconnecting := true,
                 reconnectTimer := some s.nextTimer,
                 pending := s.pending ++ [⟨s.nextTimer, 1000⟩],
                 nextTimer := s.nextTimer + 1 }) ∧
    (s.pending = [⟨h, 1000⟩] →
      step s (Event.timerFire h) = connect { s with pending := [] } ∧
      (step s (Event.timerFire h)).reconnectTimer = s.reconnectTimer ∧
      (step s (Event.timerFire h)).isReconnecting = s.isReconnecting) := by
  constructor
  · intro hrec
    simp [step, hrec]
  · intro hp
    have hany : (s.pending.any fun t => t.handle == h) = true := by simp [hp]
    have hfil : s.pending.filter (fun t => t.handle != h) = [] := by simp [hp]
    refine ⟨?_, ?_, ?_⟩ <;> simp [step, hany, hfil, connect]

/-- Witness for the amended claim C6, at the state reached after module load
(for the close part) and after one close (for the firing part). -/
theorem c6_witness :
    (step (moduleInit emptyDOM) Event.closeEv =
      { moduleInit emptyDOM with
        isReconnecting := true,
        reconnectTimer := some (moduleInit emptyDOM).nextTimer,
        pending := (moduleInit emptyDOM).pending ++ [⟨(moduleInit emptyDOM).nextTimer, 1000⟩],
        nextTimer := (moduleInit emptyDOM).nextTimer + 1 }) ∧
    (step (step (moduleInit emptyDOM) Event.closeEv) (Event.timerFire 0) =
        connect { step (moduleInit emptyDOM) Event.closeEv with pending := [] } ∧
      (step (step (moduleInit emptyDOM) Event.closeEv) (Event.timerFire 0)).reconnectTimer =
        (step (moduleInit emptyDOM) Event.closeEv).reconnectTimer ∧
      (step (step (moduleInit emptyDOM) Event.closeEv) (Event.timerFire 0)).isReconnecting =
        (step (moduleInit emptyDOM) Event.closeEv).isReconnecting) :=
  ⟨(c6_close_schedules_and_fire_connects (moduleInit emptyDOM) 0).1 rfl,
   (c6_close_schedules_and_fire_connects (step (moduleInit emptyDOM) Event.closeEv) 0).2 rfl⟩

/-- Claim C7: an inbound frame whose payload is not valid JSON is dropped by
the catch branch of the message listener with no state change whatsoever:
connection state, FirstConnectionFlag, timers, DOM and reload counter are
all untouched. -/
theorem c7_malformed_json_no_state_change (s : ClientState) (now : Nat) :
    step s (Event.message none now) = s :=
  rfl

/-- Claim C9: a decoded message whose `type` is none of `connected`,
`update`, `full-reload` hits the `default` branch of `handleMessage`, which
only logs a warning: the state is returned unchanged.  (The embedding of the
message listener is a total function — the real listener wraps
`handleMessage` in `try`/`catch` — so no inbound frame can crash the
client.) -/
theorem c9_unknown_kind_no_action (s : ClientState) (kind : String) (now : Nat) :
    step s (Event.message (some (Msg.unknown kind)) now) = s :=
  rfl

/-- Claim C8 counterexample: after a disconnect and an automatic reconnect,
the module variable `socket` refers to a new transport, but the
`window.__PALLADIN_HMR__` handle still holds the snapshot taken at load time
(the object literal `{ socket, reconnect: connect }` copies the variable's
value once): the handle does NOT contain the socket in use at inspection
time. -/
theorem c8_counterexample :
    (run (moduleInit emptyDOM) [Event.closeEv, Event.timerFire 0]).socket = 2 ∧
    (run (moduleInit emptyDOM) [Event.closeEv, Event.timerFire 0]).apiSocket = 1 ∧
    (run (moduleInit emptyDOM) [Event.closeEv, Event.timerFire 0]).socket ≠
      (run (moduleInit emptyDOM) [Event.closeEv, Event.timerFire 0]).apiSocket :=
  ⟨rfl, rfl, by decide⟩

/-- Claim C8 amended: the exposed diagnostics handle contains the transport
created by the initial `connect()` at page load — a snapshot that no later
event (in particular no reconnect) ever updates — together with a callable
that IS `connect()` itself. -/
theorem c8_handle_is_load_time_snapshot (d : DOM) (evs : List Event) :
    (run (moduleInit d) evs).apiSocket = (moduleInit d).socket ∧
    palladinReconnect = connect := by
  constructor
  · rw [run_apiSocket]
    rfl
  · rfl

/-- `collectScriptUrls` is empty exactly when no module script passes the
`script.src && !script.src.includes('__hmr')` test. -/
theorem collectScriptUrls_isEmpty (scripts : List ScriptEl) :
    (collectScriptUrls scripts).isEmpty = !(scripts.any scriptReloadable) := by
  induction scripts with
  | nil => rfl
  | cons s ss ih =>
      cases hr : scriptReloadable s with
      | false =>
          simpa [collectScriptUrls, List.filterMap_cons, hr, List.any_cons] using ih
      | true =>
          cases hsrc : s.src with
          | none => simp [scriptReloadable, hsrc] at hr
          | some u =>
              simp [collectScriptUrls, List.filterMap_cons, hr, hsrc, List.any_cons]

/-- The CSS pass of `handleUpdate` never touches script elements. -/
theorem cssFold_scripts (updates : List Update) (ts : Nat) : ∀ dom : DOM,
    (updates.foldl
      (fun d u => if jsEndsWith u.path ".css" then (reloadCSS u.path d ts).1 else d)
      dom).scripts = dom.scripts := by
  induction updates with
  | nil => intro dom; rfl
  | cons u us ih =>
      intro dom
      rw [List.foldl_cons, ih]
      cases h : jsEndsWith u.path ".css" <;> simp [reloadCSS, h]

/-- Projections of `reloadJavaScript`: the full-reload fallback happens
exactly when no reloadable script URL was collected, and otherwise the
non-reloadable scripts are kept and fresh cache-busted module scripts are
appended. -/
theorem reloadJavaScript_proj (d1 : DOM) (ts : Nat) :
    (reloadJavaScript d1 ts).fullReload = (collectScriptUrls d1.scripts).isEmpty ∧
    (reloadJavaScript d1 ts).dom.scripts =
      (if (collectScriptUrls d1.scripts).isEmpty then d1.scripts
       else d1.scripts.filter (fun s => !scriptReloadable s) ++
         (collectScriptUrls d1.scripts).map
           (fun url => { src := some { base := url.base, tParam := some ts } })) := by
  cases he : (collectScriptUrls d1.scripts).isEmpty <;> simp [reloadJavaScript, he]

/-- Behaviour of `handleUpdate` once the batch contains a script or markup
path: the outcome is decided solely by whether any reloadable module script
exists. -/
theorem handleUpdate_js (updates : List Update) (dom : DOM) (ts : Nat)
    (hesc : ((updates.any fun u =>
        jsEndsWith u.path ".js" || jsEndsWith u.path ".jsx" ||
        jsEndsWith u.path ".ts" || jsEndsWith u.path ".tsx") ||
      (updates.any fun u => jsEndsWith u.path ".html")) = true) :
    (handleUpdate updates dom ts).didFullReload = (collectScriptUrls dom.scripts).isEmpty ∧
    (handleUpdate updates dom ts).didScriptReload = !(collectScriptUrls dom.scripts).isEmpty ∧
    (handleUpdate updates dom ts).dom.scripts =
      (if (collectScriptUrls dom.scripts).isEmpty then dom.scripts
       else dom.scripts.filter (fun s => !scriptReloadable s) ++
         (collectScriptUrls dom.scripts).map
           (fun url => { src := some { base := url.base, tParam := some ts } })) := by
  have key : ∀ d1 : DOM, d1.scripts = dom.scripts →
      (reloadJavaScript d1 ts).fullReload = (collectScriptUrls dom.scripts).isEmpty ∧
      (reloadJavaScript d1 ts).dom.scripts =
        (if (collectScriptUrls dom.scripts).isEmpty then dom.scripts
         else dom.scripts.filter (fun s => !scriptReloadable s) ++
           (collectScriptUrls dom.scripts).map
             (fun url => { src := some { base := url.base, tParam := some ts } })) := by
    intro d1 h1
    obtain ⟨ha, hb⟩ := reloadJavaScript_proj d1 ts
    rw [h1] at ha hb
    exact ⟨ha, hb⟩
  cases hcss : (updates.any fun u => jsEndsWith u.path ".css") with
  | false =>
      have k := key dom rfl
      simp [handleUpdate, hesc, hcss, k.1, k.2]
  | true =>
      have k := key
        (updates.foldl
          (fun d u => if jsEndsWith u.path ".css" then (reloadCSS u.path d ts).1 else d) dom)
        (cssFold_scripts updates ts dom)
      simp [handleUpdate, hesc, hcss, k.1, k.2]

/-- Claim C4: a batch containing at least one entry ending in a script
extension (`.js`/`.jsx`/`.ts`/`.tsx`) or in `.html` always results in
exactly one of: a script-reload — every reloadable (non-HMR, with-src)
module script is removed and recreated with the cache-busting `t` parameter
— when at least one reloadable module script exists, or a full page reload
when none exists. -/
theorem c4_script_or_markup_escalates (updates : List Update) (dom : DOM) (ts : Nat)
    (h : updates.any (fun u => scriptOrHtmlPath u.path) = true) :
    ((dom.scripts.any scriptReloadable = true →
        (handleUpdate updates dom ts).didScriptReload = true ∧
        (handleUpdate updates dom ts).didFullReload = false ∧
        (handleUpdate updates dom ts).dom.scripts =
          dom.scripts.filter (fun s => !scriptReloadable s) ++
          (collectScriptUrls dom.scripts).map
            (fun url => { src := some { base := url.base, tParam := some ts } })) ∧
     (dom.scripts.any scriptReloadable = false →
        (handleUpdate updates dom ts).didFullReload = true ∧
        (handleUpdate updates dom ts).didScriptReload = false)) := by
  have hesc : ((updates.any fun u =>
      jsEndsWith u.path ".js" || jsEndsWith u.path ".jsx" ||
      jsEndsWith u.path ".ts" || jsEndsWith u.path ".tsx") ||
    (updates.any fun u => jsEndsWith u.path ".html")) = true := by
    rw [← list_any_or]
    simpa [scriptOrHtmlPath] using h
  obtain ⟨hfull, hscript, hscripts⟩ := handleUpdate_js updates dom ts hesc
  constructor
  · intro hsome
    have hne : (collectScriptUrls dom.scripts).isEmpty = false := by
      rw [collectScriptUrls_isEmpty, hsome]
      rfl
    refine ⟨?_, ?_, ?_⟩
    · rw [hscript, hne]
      rfl
    · rw [hfull, hne]
    · rw [hscripts, hne]
      simp
  · intro hnone
    have hemp : (collectScriptUrls dom.scripts).isEmpty = true := by
      rw [collectScriptUrls_isEmpty, hnone]
      rfl
    constructor
    · rw [hfull, hemp]
    · rw [hscript, hemp]
      rfl

/-- Witness for claim C4: a `.tsx` batch on a page with one reloadable
module script and one inline module script re-injects the script; on a page
with no reloadable script the fallback is a full reload. -/
theorem c4_witness :
    (handleUpdate [⟨"/src/App.tsx"⟩] ⟨[⟨some ⟨"/index.js", none⟩⟩, ⟨none⟩], []⟩ 3).didScriptReload = true ∧
    (handleUpdate [⟨"/src/App.tsx"⟩] ⟨[⟨some ⟨"/index.js", none⟩⟩, ⟨none⟩], []⟩ 3).didFullReload = false ∧
    (handleUpdate [⟨"/src/App.tsx"⟩] ⟨[⟨some ⟨"/index.js", none⟩⟩, ⟨none⟩], []⟩ 3).dom.scripts =
      (⟨[⟨some ⟨"/index.js", none⟩⟩, ⟨none⟩], []⟩ : DOM).scripts.filter (fun s => !scriptReloadable s) ++
      (collectScriptUrls (⟨[⟨some ⟨"/index.js", none⟩⟩, ⟨none⟩], []⟩ : DOM).scripts).map
        (fun url => { src := some { base := url.base, tParam := some 3 } }) :=
  (c4_script_or_markup_escalates [⟨"/src/App.tsx"⟩] ⟨[⟨some ⟨"/index.js", none⟩⟩, ⟨none⟩], []⟩ 3
    (by decide)).1 (by decide)

/-- Setting the `t` parameter twice with the same timestamp is the same as
setting it once. -/
theorem setLinkT_idem (ts : Nat) (l : LinkEl) :
    setLinkT ts (setLinkT ts l) = setLinkT ts l := by
  cases l with
  | mk href => cases href <;> rfl

/-- On a nonempty batch whose entries all end in `.css`, the CSS pass of
`handleUpdate` rewrites the `t` parameter of every link with an `href` and
does nothing else. -/
theorem cssFold_links (updates : List Update) (ts : Nat) : ∀ dom : DOM,
    updates ≠ [] → (∀ u ∈ updates, jsEndsWith u.path ".css" = true) →
    updates.foldl
      (fun d u => if jsEndsWith u.path ".css" then (reloadCSS u.path d ts).1 else d) dom
      = { dom with links := dom.links.map (setLinkT ts) } := by
  induction updates with
  | nil => intro dom hne _; exact absurd rfl hne
  | cons u us ih =>
      intro dom _ hcss
      have hu : jsEndsWith u.path ".css" = true := hcss u (List.mem_cons_self u us)
      rw [List.foldl_cons]
      cases us with
      | nil => simp [hu, reloadCSS]
      | cons v vs =>
          have hrest : ∀ w ∈ v :: vs, jsEndsWith w.path ".css" = true :=
            fun w hw => hcss w (List.mem_cons_of_mem u hw)
          have hmap : (dom.links.map (setLinkT ts)).map (setLinkT ts)
              = dom.links.map (setLinkT ts) := by
            rw [List.map_map]
            exact List.map_congr_left fun a _ => setLinkT_idem ts a
          simp only [hu, if_true]
          rw [ih ((reloadCSS u.path dom ts).1) (by simp) hrest]
          simp [reloadCSS, hmap]

/-- Claim C5 counterexample: the claim quantifies over every batch whose
entries all have paths ending in `.css`, and the empty batch satisfies that
hypothesis vacuously; but on an empty batch `hasCssChanges` is false, so no
stylesheet link is rewritten — the claimed "every currently linked
stylesheet element … has its URL rewritten" fails. -/
theorem c5_counterexample :
    (([] : List Update).all (fun u => jsEndsWith u.path ".css") = true) ∧
    (handleUpdate [] ⟨[], [⟨some ⟨"/app.css", none⟩⟩]⟩ 5).dom.links ≠
      (⟨[], [⟨some ⟨"/app.css", none⟩⟩]⟩ : DOM).links.map (setLinkT 5) :=
  ⟨rfl, by decide⟩

/-- Claim C5 amended: for every NONEMPTY batch whose entries all end in
`.css`, no script-reload and no full reload occurs, the script elements are
untouched, and every linked stylesheet element with an `href` (all of them,
not only those matching the changed path) has its `t` parameter set to the
current timestamp. -/
theorem c5_css_only_batch (updates : List Update) (dom : DOM) (ts : Nat)
    (hne : updates ≠ [])
    (hcss : ∀ u ∈ updates, jsEndsWith u.path ".css" = true) :
    (handleUpdate updates dom ts).didScriptReload = false ∧
    (handleUpdate updates dom ts).didFullReload = false ∧
    (handleUpdate updates dom ts).dom.scripts = dom.scripts ∧
    (handleUpdate updates dom ts).dom.links = dom.links.map (setLinkT ts) := by
  have hjs : (updates.any fun u =>
      jsEndsWith u.path ".js" || jsEndsWith u.path ".jsx" ||
      jsEndsWith u.path ".ts" || jsEndsWith u.path ".tsx") = false := by
    rw [List.any_eq_false]
    intro u hu
    obtain ⟨h1, h2, h3, h4, _⟩ := css_excl u.path (hcss u hu)
    simp [h1, h2, h3, h4]
  have hhtml : (updates.any fun u => jsEndsWith u.path ".html") = false := by
    rw [List.any_eq_false]
    intro u hu
    simp [(css_excl u.path (hcss u hu)).2.2.2.2]
  have hc : (updates.any fun u => jsEndsWith u.path ".css") = true := by
    rw [List.any_eq_true]
    cases updates with
    | nil => exact absurd rfl hne
    | cons u us =>
        exact ⟨u, List.mem_cons_self u us, hcss u (List.mem_cons_self u us)⟩
  have hfold := cssFold_links updates ts dom hne hcss
  simp [handleUpdate, hjs, hhtml, hc, hfold]

/-- Witness for the amended claim C5: a one-entry `.css` batch refreshes
both links (the one with an `href` gets `t=9`; the `href`-less one is left
alone) and leaves the module script in place. -/
theorem c5_witness :
    (handleUpdate [⟨"/styles/app.css"⟩]
        ⟨[⟨some ⟨"/m.js", none⟩⟩], [⟨some ⟨"/app.css", none⟩⟩, ⟨none⟩]⟩ 9).didScriptReload = false ∧
    (handleUpdate [⟨"/styles/app.css"⟩]
        ⟨[⟨some ⟨"/m.js", none⟩⟩], [⟨some ⟨"/app.css", none⟩⟩, ⟨none⟩]⟩ 9).didFullReload = false ∧
    (handleUpdate [⟨"/styles/app.css"⟩]
        ⟨[⟨some ⟨"/m.js", none⟩⟩], [⟨some ⟨"/app.css", none⟩⟩, ⟨none⟩]⟩ 9).dom.scripts =
      (⟨[⟨some ⟨"/m.js", none⟩⟩], [⟨some ⟨"/app.css", none⟩⟩, ⟨none⟩]⟩ : DOM).scripts ∧
    (handleUpdate [⟨"/styles/app.css"⟩]
        ⟨[⟨some ⟨"/m.js", none⟩⟩], [⟨some ⟨"/app.css", none⟩⟩, ⟨none⟩]⟩ 9).dom.links =
      (⟨[⟨some ⟨"/m.js", none⟩⟩], [⟨some ⟨"/app.css", none⟩⟩, ⟨none⟩]⟩ : DOM).links.map (setLinkT 9) :=
  c5_css_only_batch [⟨"/styles/app.css"⟩]
    ⟨[⟨some ⟨"/m.js", none⟩⟩], [⟨some ⟨"/app.css", none⟩⟩, ⟨none⟩]⟩ 9
    (by decide) (by decide)

/-- Claim C2 counterexample: a batch whose only entry ends in `.png` — an
extension in none of the recognized categories — sets none of
`hasJsChanges`, `hasCssChanges`, `hasHtmlChanges`, so `handleUpdate`
returns without any script-reload or full-reload escalation (and without
touching the DOM), even though a reloadable module script is present: the
batch IS silently ignored, contradicting the claimed markup classification
of unknown extensions. -/
theorem c2_counterexample :
    handleUpdate [⟨"/logo.png"⟩] ⟨[⟨some ⟨"/main.js", none⟩⟩], []⟩ 7 =
      ⟨⟨[⟨some ⟨"/main.js", none⟩⟩], []⟩, false, false⟩ :=
  rfl

/-- Claim C2 amended: an update batch none of whose entries ends in a
recognized extension (`.js`, `.jsx`, `.ts`, `.tsx`, `.css`, `.html`) is
silently ignored: no stylesheet refresh, no script-reload, no full reload,
and the DOM is returned unchanged.  Only `.html` paths count as markup
changes; unknown extensions trigger nothing. -/
theorem c2_unrecognized_extensions_ignored (updates : List Update) (dom : DOM) (ts : Nat)
    (h : ∀ u ∈ updates,
      jsEndsWith u.path ".js" = false ∧ jsEndsWith u.path ".jsx" = false ∧
      jsEndsWith u.path ".ts" = false ∧ jsEndsWith u.path ".tsx" = false ∧
      jsEndsWith u.path ".css" = false ∧ jsEndsWith u.path ".html" = false) :
    handleUpdate updates dom ts = ⟨dom, false, false⟩ := by
  have hjs : (updates.any fun u =>
      jsEndsWith u.path ".js" || jsEndsWith u.path ".jsx" ||
      jsEndsWith u.path ".ts" || jsEndsWith u.path ".tsx") = false := by
    rw [List.any_eq_false]
    intro u hu
    obtain ⟨h1, h2, h3, h4, _, _⟩ := h u hu
    simp [h1, h2, h3, h4]
  have hcss : (updates.any fun u => jsEndsWith u.path ".css") = false := by
    rw [List.any_eq_false]
    intro u hu
    simp [(h u hu).2.2.2.2.1]
  have hhtml : (updates.any fun u => jsEndsWith u.path ".html") = false := by
    rw [List.any_eq_false]
    intro u hu
    simp [(h u hu).2.2.2.2.2]
  simp [handleUpdate, hjs, hcss, hhtml]

/-- Witness for the amended claim C2: a `.bin` batch produces no action on a
page holding a reloadable script and a stylesheet link. -/
theorem c2_witness :
    handleUpdate [⟨"/data/blob.bin"⟩]
        ⟨[⟨some ⟨"/main.js", none⟩⟩], [⟨some ⟨"/app.css", none⟩⟩]⟩ 11 =
      ⟨⟨[⟨some ⟨"/main.js", none⟩⟩], [⟨some ⟨"/app.css", none⟩⟩]⟩, false, false⟩ :=
  c2_unrecognized_extensions_ignored [⟨"/data/blob.bin"⟩]
    ⟨[⟨some ⟨"/main.js", none⟩⟩], [⟨some ⟨"/app.css", none⟩⟩]⟩ 11 (by decide)

/-- Claim C10: module scripts with no `src` (inline) or whose `src` mentions
`__hmr` do not count toward "module scripts exist" — if every module script
on the page is inline or HMR-owned, `reloadJavaScript` escalates to a full
page reload and leaves the DOM unchanged even though script elements are
present — and such scripts are never removed: they survive into the
resulting DOM in every case. -/
theorem c10_inline_and_hmr_scripts_kept (dom : DOM) (ts : Nat) :
    ((∀ s ∈ dom.scripts, scriptReloadable s = false) →
      reloadJavaScript dom ts = ⟨dom, true⟩) ∧
    (∀ s ∈ dom.scripts, scriptReloadable s = false →
      s ∈ (reloadJavaScript dom ts).dom.scripts) := by
  constructor
  · intro hall
    have hnil : collectScriptUrls dom.scripts = [] := by
      rw [collectScriptUrls, List.filterMap_eq_nil_iff]
      intro s hs
      simp [hall s hs]
    simp [reloadJavaScript, hnil]
  · intro s hs hr
    cases hempty : (collectScriptUrls dom.scripts).isEmpty with
    | true =>
        simp only [reloadJavaScript, hempty, if_true]
        exact hs
    | false =>
        simp only [reloadJavaScript, hempty]
        simp only [Bool.false_eq_true, if_false, List.mem_append]
        exact Or.inl (List.mem_filter.mpr ⟨hs, by simp [hr]⟩)

/-- Witness for claim C10: on a page whose only module scripts are an inline
one and the HMR client's own, a script change falls back to a full reload,
and the inline script is kept. -/
theorem c10_witness :
    reloadJavaScript ⟨[⟨none⟩, ⟨some ⟨"/assets/__hmr/client.js", none⟩⟩], []⟩ 4 =
      ⟨⟨[⟨none⟩, ⟨some ⟨"/assets/__hmr/client.js", none⟩⟩], []⟩, true⟩ ∧
    (⟨none⟩ : ScriptEl) ∈
      (reloadJavaScript ⟨[⟨none⟩, ⟨some ⟨"/assets/__hmr/client.js", none⟩⟩], []⟩ 4).dom.scripts :=
  ⟨(c10_inline_and_hmr_scripts_kept ⟨[⟨none⟩, ⟨some ⟨"/assets/__hmr/client.js", none⟩⟩], []⟩ 4).1
      (by decide),
   (c10_inline_and_hmr_scripts_kept ⟨[⟨none⟩, ⟨some ⟨"/assets/__hmr/client.js", none⟩⟩], []⟩ 4).2
      ⟨none⟩ (by decide) (by decide)⟩
